import Mathlib

/-!
Verification of the suspend/resume sandboxed-execution bridge implemented by
`MontyCodeInterpreter` in `monty_rlm.py`.

The bridge drives one turn of sandboxed execution: it merges caller variables
with the persistent state store, assembles the tool registry (caller tools
first, then the reserved names SAVE / CLEAR / SUBMIT overwrite), starts the
external Monty sandbox session, services suspension requests against the
registry, and finishes the turn with either captured text output or a
structured final output.

The sandbox itself (pydantic_monty) is an external collaborator: it is
modelled abstractly as a session whose construction can fail with a parse or
typing error and whose activations produce a stream of prints followed by a
suspension snapshot, completion, a runtime error, or an unsupported progress
kind.  Python dicts are modelled as insertion-ordered association lists with
string keys; Python exceptions are modelled by their class plus message.
-/

set_option maxHeartbeats 1000000

namespace MontySpec

/-- A small model of the Python values exchanged between bridge and sandbox. -/
inductive Value where
  | none
  | bool (b : Bool)
  | int (n : Int)
  | str (s : String)
deriving DecidableEq, Repr

/-- A Python dict with string keys: an insertion-ordered association list.
All operations below preserve key uniqueness when the input is unique-keyed,
matching Python dict semantics. -/
abbrev Dict (α : Type) := List (String × α)

/-- Python `d.get(k)` / `d[k]` lookup (first matching entry). -/
def dictGet {α : Type} : Dict α → String → Option α
  | [], _ => Option.none
  | (k', v) :: rest, k => if k' = k then some v else dictGet rest k

/-- Python `k in d`. -/
def dictHasKey {α : Type} : Dict α → String → Bool
  | [], _ => false
  | (k', _) :: rest, k => if k' = k then true else dictHasKey rest k

/-- Overwrite every entry keyed `k` with `(k, v)`, keeping its position
(on a unique-keyed dict this is the single existing entry). -/
def dictReplace {α : Type} (k : String) (v : α) : Dict α → Dict α
  | [] => []
  | (k', v') :: rest =>
    if k' = k then (k, v) :: dictReplace k v rest
    else (k', v') :: dictReplace k v rest

/-- Python `d[k] = v`: overwrite in place when the key is present, else append. -/
def dictSet {α : Type} (d : Dict α) (k : String) (v : α) : Dict α :=
  if dictHasKey d k then dictReplace k v d else d ++ [(k, v)]

/-- Python `d.update(other)`: set every entry of `other` in order. -/
def dictUpdate {α : Type} (d other : Dict α) : Dict α :=
  other.foldl (fun acc p => dictSet acc p.1 p.2) d

/-- Python `d.pop(k, None)`: remove the entry for `k` when present. -/
def dictPop {α : Type} : Dict α → String → Dict α
  | [], _ => []
  | (k', v) :: rest, k =>
    if k' = k then dictPop rest k else (k', v) :: dictPop rest k

/-- Python `d.setdefault(k, v)`: keep an existing binding, else append. -/
def dictSetdefault {α : Type} (d : Dict α) (k : String) (v : α) : Dict α :=
  if dictHasKey d k then d else d ++ [(k, v)]

/-- Python `list(d.keys())`. -/
def dictKeys {α : Type} (d : Dict α) : List String :=
  d.map (·.1)

/-- Python `list(d.values())`. -/
def dictValues {α : Type} (d : Dict α) : List α :=
  d.map (·.2)

/-- The class of a Python exception escaping `execute`: `SyntaxError` for
parse failures, `CodeInterpreterError` for everything else. -/
inductive PyExnKind where
  | pySyntaxError
  | codeInterpreterError
deriving DecidableEq, Repr

/-- A Python exception as the caller observes it: its class and its message. -/
structure PyExn where
  kind : PyExnKind
  msg : String
deriving DecidableEq, Repr

/-- The non-exceptional return value of one `execute` call:
a `FinalOutput` mapping, a joined stdout string, or Python `None`
when no print fragment was captured. -/
inductive TurnResult where
  | finalOutput (d : Dict Value)
  | textOut (s : String)
  | noOutput
deriving DecidableEq, Repr

/-- One declared output field (`self.output_fields` entries; only the
`name` key is consulted by the bridge). -/
structure OutputField where
  name : String
deriving DecidableEq, Repr

/-- A caller-supplied tool: takes positional and keyword arguments and either
returns a value or raises (the string is the message of the raised
exception). Caller tools cannot touch the persistent state store. -/
def CallerTool : Type :=
  List Value → Dict Value → Except String Value

/-- An entry of the effective per-turn tool registry: one of the three
bridge-reserved closures or a caller tool. -/
inductive ToolEntry where
  | save
  | clear
  | submitStub
  | caller (f : CallerTool)

/-- One activation of the sandbox session (the run from `start` or a
`resume` up to the next event), carrying the print fragments emitted during
it.  `snapshot` is a suspension requesting a host callable, with `next`
giving the following activation once resumed with a return value;
`runtimeError` models a `MontyRuntimeError` raised by the activation;
`otherProgress` models any progress object that is neither a completion nor
a snapshot (e.g. an async future). -/
inductive Activation where
  | complete (prints : List String)
  | snapshot (prints : List String) (fname : String) (args : List Value)
      (kwargs : Dict Value) (next : Value → Activation)
  | runtimeError (prints : List String) (msg : String)
  | otherProgress (prints : List String)

/-- Outcome of constructing the sandbox (`pydantic_monty.Monty(...)`):
success, a `MontySyntaxError`, or a `MontyTypingError`. -/
inductive ConstructResult where
  | ok
  | parseError (msg : String)
  | typingError (msg : String)

/-- The external Monty sandbox session for one fixed code string, abstracted
to its observable behaviour: the construction outcome, and the activation
stream started from the bound input values (the bridge passes `None` in
place of an empty binding set, mirroring `merged_vars or None`). -/
structure SandboxSession where
  constructResult : ConstructResult
  start : Option (Dict Value) → Activation

/-- The interpreter state relevant to the bridge: caller tools
(`self._tools`), the persistent state store (`self._state`), and the declared
output-field schema (`self.output_fields`).  The `type_check`,
`type_check_stubs` and `limits` settings are forwarded verbatim to the
external sandbox and are folded into the session abstraction. -/
structure MontyCodeInterpreter where
  tools : Dict CallerTool
  state : Dict Value
  output_fields : Option (List OutputField)

/-- `interp.start()`: reset the persistent state store. -/
def startInterpreter (interp : MontyCodeInterpreter) : MontyCodeInterpreter :=
  { interp with state := [] }

/-- The effective per-turn tool registry:
`all_tools = dict(self._tools)` followed by the three reserved assignments
`all_tools["SAVE"] = _save`, `all_tools["CLEAR"] = _clear`,
`all_tools["SUBMIT"] = lambda **kwargs: None`. -/
def buildAllTools (tools : Dict CallerTool) : Dict ToolEntry :=
  let base := tools.map (fun p => (p.1, ToolEntry.caller p.2))
  dictSet (dictSet (dictSet base "SAVE" ToolEntry.save) "CLEAR" ToolEntry.clear)
    "SUBMIT" ToolEntry.submitStub

/-- The Variable Binding Set of a turn:
`merged_vars = {}` then `merged_vars.update(variables)` when given, then
`merged_vars.update(self._state)` — state entries win on collision. -/
def mergeVars (vars : Option (Dict Value)) (state : Dict Value) : Dict Value :=
  let base := match vars with
    | Option.some v => dictUpdate [] v
    | Option.none => []
  dictUpdate base state

/-- `merged_vars or None`: Python passes `None` in place of an empty dict. -/
def pyOrNone (d : Dict Value) : Option (Dict Value) :=
  if d.isEmpty then Option.none else some d

/-- Extract the strings of a list of values, as Python
`", ".join(names)` requires every element to be a `str`. -/
def valuesAllStr : List Value → Option (List String)
  | [] => some []
  | Value.str s :: rest => (valuesAllStr rest).map (fun l => s :: l)
  | _ => Option.none

/-- The state-store mutation performed by `_clear` on its positional
arguments: `self._state.pop(n, None)` for each; a non-string argument can
never equal a string key, so it pops nothing. -/
def clearNames (names : List Value) (st : Dict Value) : Dict Value :=
  names.foldl
    (fun s n => match n with
      | Value.str k => dictPop s k
      | _ => s)
    st

/-- Invoke a registry entry on positional arguments, keyword arguments and
the current persistent state store.  Returns the Python outcome (a value or
the message of the raised exception) together with the state store after the
call — mutations made before a raise persist, as in Python. -/
def invokeTool : ToolEntry → List Value → Dict Value → Dict Value →
    Except String Value × Dict Value
  | ToolEntry.save, args, kwargs, st =>
    if args.isEmpty then
      (Except.ok (Value.str ("Saved: " ++ String.intercalate ", " (dictKeys kwargs))),
        dictUpdate st kwargs)
    else
      (Except.error "_save() takes 0 positional arguments", st)
  | ToolEntry.clear, names, kwargs, st =>
    if kwargs.isEmpty then
      if names.isEmpty then
        (Except.ok (Value.str "Cleared all saved state"), [])
      else
        match valuesAllStr names with
        | some strs =>
          (Except.ok (Value.str ("Cleared: " ++ String.intercalate ", " strs)),
            clearNames names st)
        | Option.none =>
          (Except.error "sequence item: expected str instance", clearNames names st)
    else
      (Except.error "_clear() got an unexpected keyword argument", st)
  | ToolEntry.submitStub, args, _kwargs, st =>
    if args.isEmpty then (Except.ok Value.none, st)
    else (Except.error "<lambda>() takes 0 positional arguments", st)
  | ToolEntry.caller f, args, kwargs, st =>
    (f args kwargs, st)

/-- Python truthiness of `self.output_fields` (`None` and `[]` are falsy). -/
def outputFieldsTruthy : Option (List OutputField) → Bool
  | Option.none => false
  | some l => !l.isEmpty

/-- The names of the declared output fields
(`field_names = [f["name"] for f in self.output_fields]`). -/
def fieldNames (fields : List OutputField) : List String :=
  fields.map (·.name)

/-- The Final Output built on a SUBMIT suspension:
`submit_kwargs = dict(progress.kwargs)`, then — only when both
`progress.args` and `self.output_fields` are truthy — each positional
argument is paired with the declared field names by `zip` (stopping at the
shorter sequence) and bound via `setdefault`, never overwriting a keyword
binding. -/
def buildSubmitOutput (fields : Option (List OutputField)) (args : List Value)
    (kwargs : Dict Value) : Dict Value :=
  if !args.isEmpty && outputFieldsTruthy fields then
    (List.zip (fieldNames (fields.getD [])) args).foldl
      (fun d p => dictSetdefault d p.1 p.2) kwargs
  else
    kwargs

/-- The bridge dispatch loop (`while not isinstance(progress, MontyComplete)`),
threading the persistent state store and the accumulated print fragments.
`fromTool` records whether the current activation was produced by
`progress.resume(...)` inside the tool `try` block: a `MontyRuntimeError`
raised there is caught by the same handler and reported as a tool failure of
the tool just invoked, while one raised by `monty.start(...)` is reported
directly. -/
def runLoop (tools : Dict ToolEntry) (fields : Option (List OutputField)) :
    Activation → Option String → Dict Value → List String →
    Except PyExn TurnResult × Dict Value
  | Activation.complete prints, _, st, acc =>
    let parts := acc ++ prints
    (Except.ok (if parts.isEmpty then TurnResult.noOutput
      else TurnResult.textOut (String.join parts)), st)
  | Activation.runtimeError _ msg, fromTool, st, _ =>
    (match fromTool with
      | some fname =>
        Except.error ⟨PyExnKind.codeInterpreterError, "Tool " ++ fname ++ " failed: " ++ msg⟩
      | Option.none =>
        Except.error ⟨PyExnKind.codeInterpreterError, msg⟩, st)
  | Activation.otherProgress _, _, st, _ =>
    (Except.error ⟨PyExnKind.codeInterpreterError, "Async futures not supported"⟩, st)
  | Activation.snapshot prints fname args kwargs next, _, st, acc =>
    let acc2 := acc ++ prints
    if fname = "SUBMIT" then
      (Except.ok (TurnResult.finalOutput (buildSubmitOutput fields args kwargs)), st)
    else
      match dictGet tools fname with
      | Option.none =>
        (Except.error ⟨PyExnKind.codeInterpreterError, "Unknown function: " ++ fname⟩, st)
      | some entry =>
        match invokeTool entry args kwargs st with
        | (Except.error emsg, st2) =>
          (Except.error
            ⟨PyExnKind.codeInterpreterError, "Tool " ++ fname ++ " failed: " ++ emsg⟩, st2)
        | (Except.ok rv, st2) =>
          runLoop tools fields (next rv) (some fname) st2 acc2

/-- `MontyCodeInterpreter.execute` for one turn: build the registry, merge
the binding set, construct the sandbox (parse errors become `SyntaxError`,
typing errors become `CodeInterpreterError`), start it on the bound inputs
and run the dispatch loop.  The second component is the persistent state
store after the turn (`self._state` is mutated in place in the source). -/
def execute (interp : MontyCodeInterpreter) (session : SandboxSession)
    (vars : Option (Dict Value)) : Except PyExn TurnResult × Dict Value :=
  let all_tools := buildAllTools interp.tools
  let merged_vars := mergeVars vars interp.state
  match session.constructResult with
  | ConstructResult.parseError msg =>
    (Except.error ⟨PyExnKind.pySyntaxError, msg⟩, interp.state)
  | ConstructResult.typingError msg =>
    (Except.error ⟨PyExnKind.codeInterpreterError, msg⟩, interp.state)
  | ConstructResult.ok =>
    runLoop all_tools interp.output_fields (session.start (pyOrNone merged_vars))
      Option.none interp.state []

/-- The exception class of a turn outcome, when it failed. -/
def errKindOf : Except PyExn TurnResult → Option PyExnKind
  | Except.error e => some e.kind
  | Except.ok _ => Option.none

/-- A session that constructs successfully and whose first activation does
not depend on the bound inputs. -/
def constSession (a : Activation) : SandboxSession :=
  ⟨ConstructResult.ok, fun _ => a⟩

/-! ### Lemmas about the dict model -/

theorem dictGet_eq_none_of_not_hasKey {α : Type} {d : Dict α} {k : String}
    (h : dictHasKey d k = false) : dictGet d k = Option.none := by
  induction d with
  | nil => rfl
  | cons p rest ih =>
    obtain ⟨k', v⟩ := p
    by_cases hk : k' = k
    · simp [dictHasKey, hk] at h
    · simp only [dictGet, if_neg hk]
      exact ih (by simpa [dictHasKey, hk] using h)

theorem dictHasKey_append {α : Type} (d e : Dict α) (k : String) :
    dictHasKey (d ++ e) k = (dictHasKey d k || dictHasKey e k) := by
  induction d with
  | nil => simp [dictHasKey]
  | cons p rest ih =>
    obtain ⟨k', v⟩ := p
    by_cases hk : k' = k
    · simp [dictHasKey, hk]
    · simp [dictHasKey, hk, ih]

theorem dictGet_append_of_hasKey {α : Type} {d : Dict α} (e : Dict α) {k : String}
    (h : dictHasKey d k = true) : dictGet (d ++ e) k = dictGet d k := by
  induction d with
  | nil => simp [dictHasKey] at h
  | cons p rest ih =>
    obtain ⟨k', v⟩ := p
    by_cases hk : k' = k
    · simp [dictGet, hk]
    · simp only [List.cons_append, dictGet, if_neg hk]
      exact ih (by simpa [dictHasKey, hk] using h)

theorem dictGet_append_of_not_hasKey {α : Type} {d : Dict α} (e : Dict α) {k : String}
    (h : dictHasKey d k = false) : dictGet (d ++ e) k = dictGet e k := by
  induction d with
  | nil => rfl
  | cons p rest ih =>
    obtain ⟨k', v⟩ := p
    by_cases hk : k' = k
    · simp [dictHasKey, hk] at h
    · simp only [List.cons_append, dictGet, if_neg hk]
      exact ih (by simpa [dictHasKey, hk] using h)

theorem dictGet_replace_self {α : Type} {d : Dict α} {k : String} (v : α)
    (h : dictHasKey d k = true) : dictGet (dictReplace k v d) k = some v := by
  induction d with
  | nil => simp [dictHasKey] at h
  | cons p rest ih =>
    obtain ⟨a, b⟩ := p
    by_cases ha : a = k
    · simp [dictReplace, dictGet, ha]
    · simp only [dictReplace, if_neg ha, dictGet]
      exact ih (by simpa [dictHasKey, ha] using h)

theorem dictGet_replace_ne {α : Type} (d : Dict α) {k k' : String} (v : α)
    (h : k ≠ k') : dictGet (dictReplace k v d) k' = dictGet d k' := by
  induction d with
  | nil => rfl
  | cons p rest ih =>
    obtain ⟨a, b⟩ := p
    by_cases ha : a = k
    · simp [dictReplace, dictGet, ha, h, ih]
    · simp [dictReplace, dictGet, ha, ih]

theorem dictGet_set_self {α : Type} (d : Dict α) (k : String) (v : α) :
    dictGet (dictSet d k v) k = some v := by
  unfold dictSet
  cases hh : dictHasKey d k with
  | true => simpa using dictGet_replace_self v hh
  | false =>
    simp only [Bool.false_eq_true, if_false]
    rw [dictGet_append_of_not_hasKey _ hh]
    simp [dictGet]

theorem dictGet_set_ne {α : Type} (d : Dict α) {k k' : String} (v : α)
    (h : k ≠ k') : dictGet (dictSet d k v) k' = dictGet d k' := by
  unfold dictSet
  cases hh : dictHasKey d k with
  | true => simpa using dictGet_replace_ne d v h
  | false =>
    simp only [Bool.false_eq_true, if_false]
    cases hd : dictHasKey d k' with
    | true => exact dictGet_append_of_hasKey _ hd
    | false =>
      rw [dictGet_append_of_not_hasKey _ hd, dictGet_eq_none_of_not_hasKey hd]
      simp [dictGet, h]

theorem dictHasKey_iff_mem_keys {α : Type} {d : Dict α} {k : String} :
    dictHasKey d k = true ↔ k ∈ dictKeys d := by
  induction d with
  | nil => simp [dictHasKey, dictKeys]
  | cons p rest ih =>
    obtain ⟨a, b⟩ := p
    by_cases ha : a = k
    · simp [dictHasKey, dictKeys, ha]
    · simp [dictHasKey, dictKeys, ha, ih, Ne.symm ha]

theorem dictKeys_replace {α : Type} (k : String) (v : α) (d : Dict α) :
    dictKeys (dictReplace k v d) = dictKeys d := by
  induction d with
  | nil => rfl
  | cons p rest ih =>
    obtain ⟨a, b⟩ := p
    by_cases ha : a = k
    · subst ha
      simp only [dictReplace, if_pos rfl, dictKeys, List.map_cons] at ih ⊢
      simp [ih]
    · simp only [dictReplace, if_neg ha, dictKeys, List.map_cons] at ih ⊢
      rw [ih]

theorem dictKeys_set_nodup {α : Type} {d : Dict α} (k : String) (v : α)
    (h : (dictKeys d).Nodup) : (dictKeys (dictSet d k v)).Nodup := by
  unfold dictSet
  cases hh : dictHasKey d k with
  | true => simpa [dictKeys_replace k v d] using h
  | false =>
    simp only [Bool.false_eq_true, if_false]
    have hk : k ∉ dictKeys d := fun hc => by
      rw [← dictHasKey_iff_mem_keys] at hc
      simp [hc] at hh
    have hkeys : dictKeys (d ++ [(k, v)]) = dictKeys d ++ [k] := by
      simp [dictKeys]
    rw [hkeys]
    exact List.Nodup.append h (List.nodup_singleton k)
      (fun x hx hxk => hk (by simp only [List.mem_singleton] at hxk; exact hxk ▸ hx))

theorem dictKeys_update_nodup {α : Type} {d : Dict α} (e : Dict α)
    (h : (dictKeys d).Nodup) : (dictKeys (dictUpdate d e)).Nodup := by
  induction e generalizing d with
  | nil => simpa [dictUpdate] using h
  | cons p rest ih =>
    obtain ⟨a, b⟩ := p
    have : dictUpdate d ((a, b) :: rest) = dictUpdate (dictSet d a b) rest := rfl
    rw [this]
    exact ih (dictKeys_set_nodup a b h)

theorem dictGet_update_of_not_hasKey {α : Type} (d : Dict α) {e : Dict α} {k : String}
    (h : dictHasKey e k = false) : dictGet (dictUpdate d e) k = dictGet d k := by
  induction e generalizing d with
  | nil => rfl
  | cons p rest ih =>
    obtain ⟨a, b⟩ := p
    by_cases ha : a = k
    · simp [dictHasKey, ha] at h
    · simp only [dictHasKey, if_neg ha] at h
      have : dictUpdate d ((a, b) :: rest) = dictUpdate (dictSet d a b) rest := rfl
      rw [this, ih _ h, dictGet_set_ne d b ha]

theorem dictGet_update_of_hasKey {α : Type} (d : Dict α) {e : Dict α} {k : String}
    (hnd : (dictKeys e).Nodup) (h : dictHasKey e k = true) :
    dictGet (dictUpdate d e) k = dictGet e k := by
  induction e generalizing d with
  | nil => simp [dictHasKey] at h
  | cons p rest ih =>
    obtain ⟨a, b⟩ := p
    have hstep : dictUpdate d ((a, b) :: rest) = dictUpdate (dictSet d a b) rest := rfl
    simp only [dictKeys, List.map_cons, List.nodup_cons] at hnd
    by_cases ha : a = k
    · subst ha
      have hrest : dictHasKey rest a = false := by
        cases hr : dictHasKey rest a with
        | true => exact absurd (dictHasKey_iff_mem_keys.mp hr) hnd.1
        | false => rfl
      rw [hstep, dictGet_update_of_not_hasKey _ hrest, dictGet_set_self]
      simp [dictGet]
    · simp only [dictHasKey, if_neg ha] at h
      rw [hstep, ih _ hnd.2 h]
      simp [dictGet, ha]

theorem dictGet_update {α : Type} (d : Dict α) {e : Dict α} (k : String)
    (hnd : (dictKeys e).Nodup) :
    dictGet (dictUpdate d e) k =
      (if dictHasKey e k then dictGet e k else dictGet d k) := by
  cases h : dictHasKey e k with
  | true => simpa using dictGet_update_of_hasKey d hnd h
  | false => simpa [Bool.false_eq_true] using dictGet_update_of_not_hasKey d h

theorem dictHasKey_setdefault {α : Type} (d : Dict α) (a : String) (b : α) {k : String}
    (h : dictHasKey d k = true) : dictHasKey (dictSetdefault d a b) k = true := by
  unfold dictSetdefault
  cases hh : dictHasKey d a with
  | true => simpa using h
  | false => simp [dictHasKey_append, h]

theorem dictGet_setdefault_of_hasKey {α : Type} (d : Dict α) (a : String) (b : α)
    {k : String} (h : dictHasKey d k = true) :
    dictGet (dictSetdefault d a b) k = dictGet d k := by
  unfold dictSetdefault
  cases hh : dictHasKey d a with
  | true => simp
  | false =>
    simp only [Bool.false_eq_true, if_false]
    exact dictGet_append_of_hasKey _ h

theorem dictGet_foldl_setdefault {α : Type} (l : List (String × α)) {d : Dict α}
    {k : String} (h : dictHasKey d k = true) :
    dictGet (l.foldl (fun acc p => dictSetdefault acc p.1 p.2) d) k = dictGet d k := by
  induction l generalizing d with
  | nil => rfl
  | cons p rest ih =>
    obtain ⟨a, b⟩ := p
    simp only [List.foldl_cons]
    rw [ih (dictHasKey_setdefault d a b h), dictGet_setdefault_of_hasKey d a b h]

theorem dictGet_pop_self {α : Type} (d : Dict α) (k : String) :
    dictGet (dictPop d k) k = Option.none := by
  induction d with
  | nil => rfl
  | cons p rest ih =>
    obtain ⟨a, b⟩ := p
    by_cases ha : a = k
    · simpa [dictPop, ha] using ih
    · simpa [dictPop, dictGet, ha] using ih

theorem dictGet_pop_ne {α : Type} (d : Dict α) {k k' : String} (h : k ≠ k') :
    dictGet (dictPop d k) k' = dictGet d k' := by
  induction d with
  | nil => rfl
  | cons p rest ih =>
    obtain ⟨a, b⟩ := p
    by_cases ha : a = k
    · subst ha
      simp [dictPop, dictGet, h, ih]
    · by_cases hk' : a = k'
      · simp [dictPop, dictGet, ha, hk', Ne.symm h]
      · simp [dictPop, dictGet, ha, hk', ih]

theorem clearNames_get (names : List Value) (st : Dict Value) (k : String) :
    dictGet (clearNames names st) k =
      (if Value.str k ∈ names then Option.none else dictGet st k) := by
  induction names generalizing st with
  | nil => simp [clearNames]
  | cons n rest ih =>
    have hstep : ∀ s, clearNames (n :: rest) s =
        clearNames rest (match n with | Value.str k' => dictPop s k' | _ => s) := by
      intro s; rfl
    rw [hstep]
    by_cases hn : n = Value.str k
    · subst hn
      by_cases hr : Value.str k ∈ rest
      · simp [ih, hr]
      · simp [ih, hr, dictGet_pop_self]
    · match n with
      | Value.str k' =>
        have hkk : k' ≠ k := fun hc => hn (by rw [hc])
        simp only [ih, dictGet_pop_ne st hkk]
        simp [List.mem_cons, hn, Ne.symm hkk]
      | Value.none => simp [ih, List.mem_cons, hn]
      | Value.bool b => simp [ih, List.mem_cons, hn]
      | Value.int m => simp [ih, List.mem_cons, hn]

theorem valuesAllStr_map_str (strs : List String) :
    valuesAllStr (strs.map Value.str) = some strs := by
  induction strs with
  | nil => rfl
  | cons s rest ih => simp [valuesAllStr, ih]

theorem zip_eq_zip_take {α β : Type} (l : List α) (r : List β) :
    List.zip l r = List.zip l (r.take l.length) := by
  induction l generalizing r with
  | nil => simp
  | cons a t ih =>
    cases r with
    | nil => simp
    | cons b s =>
      simp only [List.length_cons, List.take_succ_cons, List.zip_cons_cons]
      exact congrArg (fun l => (a, b) :: l) (ih s)

theorem dictGet_map_caller (tools : Dict CallerTool) (n : String) :
    dictGet (tools.map (fun p => (p.1, ToolEntry.caller p.2))) n =
      Option.map ToolEntry.caller (dictGet tools n) := by
  induction tools with
  | nil => rfl
  | cons p rest ih =>
    obtain ⟨a, f⟩ := p
    by_cases ha : a = n
    · simp [dictGet, ha]
    · simp [dictGet, ha, ih]

theorem buildAllTools_get_SAVE (tools : Dict CallerTool) :
    dictGet (buildAllTools tools) "SAVE" = some ToolEntry.save := by
  unfold buildAllTools
  rw [dictGet_set_ne _ _ (by decide), dictGet_set_ne _ _ (by decide),
    dictGet_set_self]

theorem buildAllTools_get_CLEAR (tools : Dict CallerTool) :
    dictGet (buildAllTools tools) "CLEAR" = some ToolEntry.clear := by
  unfold buildAllTools
  rw [dictGet_set_ne _ _ (by decide), dictGet_set_self]

theorem buildAllTools_get_SUBMIT (tools : Dict CallerTool) :
    dictGet (buildAllTools tools) "SUBMIT" = some ToolEntry.submitStub := by
  unfold buildAllTools
  rw [dictGet_set_self]

theorem buildAllTools_get_other (tools : Dict CallerTool) {n : String}
    (h1 : n ≠ "SAVE") (h2 : n ≠ "CLEAR") (h3 : n ≠ "SUBMIT") :
    dictGet (buildAllTools tools) n =
      Option.map ToolEntry.caller (dictGet tools n) := by
  unfold buildAllTools
  rw [dictGet_set_ne _ _ (Ne.symm h3), dictGet_set_ne _ _ (Ne.symm h2),
    dictGet_set_ne _ _ (Ne.symm h1), dictGet_map_caller]

theorem mergeVars_of_hasKey (vars : Option (Dict Value)) {st : Dict Value}
    {n : String} (hnd : (dictKeys st).Nodup) (h : dictHasKey st n = true) :
    dictGet (mergeVars vars st) n = dictGet st n := by
  unfold mergeVars
  exact dictGet_update_of_hasKey _ hnd h

/-! ### Claim theorems -/

/-- Claim C1: whenever the sandbox suspends requesting the name SUBMIT, the
bridge terminates the turn immediately (the rest of the session, the
accumulated prints and the state are not consulted further), returning a
Final Output built from the SUBMIT keyword arguments; positional arguments
are merged into declared output-field order via setdefault, never
overwriting a keyword binding; captured text is discarded. -/
theorem C1_submit_terminates_turn (tools : Dict ToolEntry) (ctools : Dict CallerTool)
    (fields : Option (List OutputField)) (prints : List String) (args : List Value)
    (kwargs : Dict Value) (next : Value → Activation) (ft : Option String)
    (st : Dict Value) (acc : List String) (vars : Option (Dict Value)) :
    runLoop tools fields (Activation.snapshot prints "SUBMIT" args kwargs next) ft st acc
      = (Except.ok (TurnResult.finalOutput (buildSubmitOutput fields args kwargs)), st)
    ∧ execute ⟨ctools, st, fields⟩
        (constSession (Activation.snapshot prints "SUBMIT" args kwargs next)) vars
      = (Except.ok (TurnResult.finalOutput (buildSubmitOutput fields args kwargs)), st)
    ∧ (∀ n, dictHasKey kwargs n = true →
        dictGet (buildSubmitOutput fields args kwargs) n = dictGet kwargs n)
    ∧ (∀ F, args ≠ [] → F ≠ [] →
        buildSubmitOutput (some F) args kwargs
          = (List.zip (fieldNames F) args).foldl
              (fun d p => dictSetdefault d p.1 p.2) kwargs) := by
  refine ⟨by simp [runLoop], ?_, ?_, ?_⟩
  · show runLoop _ _ _ _ _ _ = _
    simp [constSession, runLoop]
  · intro n h
    unfold buildSubmitOutput
    cases hc : (!args.isEmpty && outputFieldsTruthy fields) with
    | true =>
      simp only [if_pos rfl]
      exact dictGet_foldl_setdefault _ h
    | false => simp
  · intro F hargs hF
    unfold buildSubmitOutput
    cases args with
    | nil => exact absurd rfl hargs
    | cons a as =>
      cases F with
      | nil => exact absurd rfl hF
      | cons f fs => simp [outputFieldsTruthy]

theorem C1_submit_terminates_turn_witness :
    dictGet (buildSubmitOutput (some [⟨"b"⟩]) [Value.int 1] [("a", Value.int 2)]) "a"
        = dictGet [("a", Value.int 2)] "a"
    ∧ buildSubmitOutput (some [⟨"b"⟩]) [Value.int 1] [("a", Value.int 2)]
        = (List.zip (fieldNames [⟨"b"⟩]) [Value.int 1]).foldl
            (fun d p => dictSetdefault d p.1 p.2) [("a", Value.int 2)] :=
  ⟨(C1_submit_terminates_turn [] [] (some [⟨"b"⟩]) [] [Value.int 1] [("a", Value.int 2)]
      (fun _ => Activation.complete []) Option.none [] [] Option.none).2.2.1 "a" (by decide),
    (C1_submit_terminates_turn [] [] (some [⟨"b"⟩]) [] [Value.int 1] [("a", Value.int 2)]
      (fun _ => Activation.complete []) Option.none [] [] Option.none).2.2.2 [⟨"b"⟩]
      (by decide) (by decide)⟩

/-- Claim C2: the Variable Binding Set handed to the sandbox by `execute` is
exactly the merge of the caller variables with the persistent state store
(the empty merge being passed as Python `None`), and on any name present in
both the state-store value wins. -/
theorem C2_merge_state_wins (tools : Dict CallerTool) (st : Dict Value)
    (fields : Option (List OutputField)) (strt : Option (Dict Value) → Activation)
    (vars : Dict Value) (n : String) :
    execute ⟨tools, st, fields⟩ ⟨ConstructResult.ok, strt⟩ (some vars)
      = runLoop (buildAllTools tools) fields
          (strt (pyOrNone (mergeVars (some vars) st))) Option.none st []
    ∧ ((dictKeys st).Nodup → dictHasKey vars n = true → dictHasKey st n = true →
        dictGet (mergeVars (some vars) st) n = dictGet st n) := by
  exact ⟨rfl, fun hnd _ h => mergeVars_of_hasKey _ hnd h⟩

theorem C2_merge_state_wins_witness :
    execute ⟨[], [("x", Value.int 1)], Option.none⟩
        ⟨ConstructResult.ok, fun _ => Activation.complete []⟩ (some [("x", Value.int 2)])
      = runLoop (buildAllTools []) Option.none
          ((fun _ => Activation.complete [])
            (pyOrNone (mergeVars (some [("x", Value.int 2)]) [("x", Value.int 1)])))
          Option.none [("x", Value.int 1)] []
    ∧ dictGet (mergeVars (some [("x", Value.int 2)]) [("x", Value.int 1)]) "x"
        = dictGet [("x", Value.int 1)] "x" :=
  ⟨(C2_merge_state_wins [] [("x", Value.int 1)] Option.none
      (fun _ => Activation.complete []) [("x", Value.int 2)] "x").1,
    (C2_merge_state_wins [] [("x", Value.int 1)] Option.none
      (fun _ => Activation.complete []) [("x", Value.int 2)] "x").2
      (by decide) (by decide) (by decide)⟩

/-- Claim C3 counterexample: with no output-field schema set, a SUBMIT with
the positional argument `7` and keyword binding `a = "x"` produces the Final
Output `{a: "x"}` only — the positional binding given to SUBMIT is absent
from the result, refuting "contains whatever keyword and positional bindings
were given". -/
theorem C3_counterexample :
    (execute ⟨[], [], Option.none⟩
        (constSession (Activation.snapshot [] "SUBMIT" [Value.int 7]
          [("a", Value.str "x")] (fun _ => Activation.complete []))) Option.none).1
      = Except.ok (TurnResult.finalOutput [("a", Value.str "x")])
    ∧ Value.int 7 ∉ dictValues [("a", Value.str "x")] :=
  ⟨rfl, by decide⟩

/-- Claim C3 amended: a SUBMIT suspension made when `output_fields` is
`None` still succeeds, and the produced Final Output consists of exactly the
keyword bindings given to SUBMIT; positional arguments are silently
discarded. -/
theorem C3_no_schema_kwargs_only (tools : Dict ToolEntry) (ctools : Dict CallerTool)
    (st : Dict Value) (prints : List String) (args : List Value) (kwargs : Dict Value)
    (next : Value → Activation) (ft : Option String) (acc : List String)
    (vars : Option (Dict Value)) :
    buildSubmitOutput Option.none args kwargs = kwargs
    ∧ runLoop tools Option.none (Activation.snapshot prints "SUBMIT" args kwargs next)
        ft st acc
      = (Except.ok (TurnResult.finalOutput kwargs), st)
    ∧ execute ⟨ctools, st, Option.none⟩
        (constSession (Activation.snapshot prints "SUBMIT" args kwargs next)) vars
      = (Except.ok (TurnResult.finalOutput kwargs), st) := by
  have hb : buildSubmitOutput Option.none args kwargs = kwargs := by
    simp [buildSubmitOutput, outputFieldsTruthy]
  refine ⟨hb, by simp [runLoop, hb], ?_⟩
  show runLoop _ _ _ _ _ _ = _
  simp [constSession, runLoop, hb]

/-- Claim C4 counterexample: a runtime error raised by the session itself
and a tool-execution error reach the caller with the SAME exception class
(`CodeInterpreterError`), so a runtime error is not a distinct error kind
the caller can branch on, refuting the claim. -/
theorem C4_counterexample :
    errKindOf (execute ⟨[], [], Option.none⟩
        ⟨ConstructResult.ok, fun _ => Activation.runtimeError [] "division by zero"⟩
        Option.none).1
      = errKindOf (execute ⟨[("t", fun _ _ => Except.error "x")], [], Option.none⟩
          (constSession (Activation.snapshot [] "t" [] []
            (fun _ => Activation.complete []))) Option.none).1
    ∧ (execute ⟨[], [], Option.none⟩
        ⟨ConstructResult.ok, fun _ => Activation.runtimeError [] "division by zero"⟩
        Option.none).1
      = Except.error ⟨PyExnKind.codeInterpreterError, "division by zero"⟩
    ∧ (execute ⟨[("t", fun _ _ => Except.error "x")], [], Option.none⟩
        (constSession (Activation.snapshot [] "t" [] []
          (fun _ => Activation.complete []))) Option.none).1
      = Except.error ⟨PyExnKind.codeInterpreterError, "Tool t failed: x"⟩ :=
  ⟨rfl, rfl, rfl⟩

/-- Claim C4 amended: every turn failure is surfaced as a typed exception,
but only two classes exist: parse errors raise `SyntaxError`, while
type-validation, runtime, unknown-callable, tool-execution and
unsupported-suspension failures all raise `CodeInterpreterError` and are
distinguished only by message text; the one kind distinction a caller can
branch on is parse errors versus everything else. -/
theorem C4_error_kinds (tools : Dict CallerTool) (st : Dict Value)
    (fields : Option (List OutputField)) (strt : Option (Dict Value) → Activation)
    (msg : String) (p : List String) (vars : Option (Dict Value))
    (next : Value → Activation) (fn tn m : String) :
    (execute ⟨tools, st, fields⟩ ⟨ConstructResult.parseError msg, strt⟩ vars).1
      = Except.error ⟨PyExnKind.pySyntaxError, msg⟩
    ∧ (execute ⟨tools, st, fields⟩ ⟨ConstructResult.typingError msg, strt⟩ vars).1
      = Except.error ⟨PyExnKind.codeInterpreterError, msg⟩
    ∧ (execute ⟨tools, st, fields⟩
        ⟨ConstructResult.ok, fun _ => Activation.runtimeError p msg⟩ vars).1
      = Except.error ⟨PyExnKind.codeInterpreterError, msg⟩
    ∧ (execute ⟨tools, st, fields⟩
        ⟨ConstructResult.ok, fun _ => Activation.otherProgress p⟩ vars).1
      = Except.error ⟨PyExnKind.codeInterpreterError, "Async futures not supported"⟩
    ∧ (fn ≠ "SAVE" → fn ≠ "CLEAR" → fn ≠ "SUBMIT" → dictGet tools fn = Option.none →
        (execute ⟨tools, st, fields⟩
          ⟨ConstructResult.ok, fun _ => Activation.snapshot p fn [] [] next⟩ vars).1
          = Except.error ⟨PyExnKind.codeInterpreterError, "Unknown function: " ++ fn⟩)
    ∧ (tn ≠ "SAVE" → tn ≠ "CLEAR" → tn ≠ "SUBMIT" →
        (execute ⟨[(tn, fun _ _ => Except.error m)], st, fields⟩
          ⟨ConstructResult.ok, fun _ => Activation.snapshot p tn [] [] next⟩ vars).1
          = Except.error ⟨PyExnKind.codeInterpreterError, "Tool " ++ tn ++ " failed: " ++ m⟩)
    ∧ PyExnKind.pySyntaxError ≠ PyExnKind.codeInterpreterError := by
  refine ⟨rfl, rfl, rfl, rfl, ?_, ?_, by decide⟩
  · intro h1 h2 h3 hget
    show (runLoop _ _ _ _ _ _).1 = _
    simp [runLoop, h3, buildAllTools_get_other _ h1 h2 h3, hget]
  · intro h1 h2 h3
    show (runLoop _ _ _ _ _ _).1 = _
    simp [runLoop, h3, buildAllTools_get_other _ h1 h2 h3, invokeTool, dictGet]

theorem C4_error_kinds_witness :
    (execute ⟨[], [], Option.none⟩
        ⟨ConstructResult.ok, fun _ => Activation.snapshot [] "f" [] []
          (fun _ => Activation.complete [])⟩ Option.none).1
      = Except.error ⟨PyExnKind.codeInterpreterError, "Unknown function: " ++ "f"⟩
    ∧ (execute ⟨[("t", fun _ _ => Except.error "boom")], [], Option.none⟩
        ⟨ConstructResult.ok, fun _ => Activation.snapshot [] "t" [] []
          (fun _ => Activation.complete [])⟩ Option.none).1
      = Except.error ⟨PyExnKind.codeInterpreterError, "Tool " ++ "t" ++ " failed: " ++ "boom"⟩ :=
  ⟨(C4_error_kinds [] [] Option.none (fun _ => Activation.complete []) "" []
      Option.none (fun _ => Activation.complete []) "f" "t" "boom").2.2.2.2.1
      (by decide) (by decide) (by decide) rfl,
    (C4_error_kinds [] [] Option.none (fun _ => Activation.complete []) "" []
      Option.none (fun _ => Activation.complete []) "f" "t" "boom").2.2.2.2.2.1
      (by decide) (by decide) (by decide)⟩

/-- Claim C5: SAVE merges all its keyword bindings into the persistent
state store (overwriting existing names), returns a confirmation string
naming the saved keys, the mutated store is what `execute` leaves behind
for the next turn, the saved bindings win in a later turn's Variable
Binding Set merge, and across two saves the later one wins on collisions
while both sets remain visible. -/
theorem C5_save_semantics (tools : Dict CallerTool) (st kw kw2 : Dict Value)
    (fields : Option (List OutputField)) (vars vars2 : Option (Dict Value)) (n : String) :
    invokeTool ToolEntry.save [] kw st
      = (Except.ok (Value.str ("Saved: " ++ String.intercalate ", " (dictKeys kw))),
          dictUpdate st kw)
    ∧ execute ⟨tools, st, fields⟩
        (constSession (Activation.snapshot [] "SAVE" [] kw
          (fun _ => Activation.complete []))) vars
      = (Except.ok TurnResult.noOutput, dictUpdate st kw)
    ∧ ((dictKeys kw).Nodup → dictHasKey kw n = true →
        dictGet (dictUpdate st kw) n = dictGet kw n)
    ∧ (dictHasKey kw n = false → dictGet (dictUpdate st kw) n = dictGet st n)
    ∧ ((dictKeys st).Nodup → dictHasKey (dictUpdate st kw) n = true →
        dictGet (mergeVars vars2 (dictUpdate st kw)) n = dictGet (dictUpdate st kw) n)
    ∧ ((dictKeys kw2).Nodup → (dictKeys kw).Nodup →
        dictGet (dictUpdate (dictUpdate st kw) kw2) n
          = (if dictHasKey kw2 n then dictGet kw2 n
             else if dictHasKey kw n then dictGet kw n
             else dictGet st n)) := by
  refine ⟨by simp [invokeTool], ?_, ?_, ?_, ?_, ?_⟩
  · show runLoop _ _ _ _ _ _ = _
    simp [constSession, runLoop, buildAllTools_get_SAVE, invokeTool]
  · exact fun hnd h => dictGet_update_of_hasKey st hnd h
  · exact fun h => dictGet_update_of_not_hasKey st h
  · exact fun hnd h => mergeVars_of_hasKey vars2 (dictKeys_update_nodup kw hnd) h
  · intro hnd2 hnd1
    rw [dictGet_update _ n hnd2, dictGet_update _ n hnd1]

theorem C5_save_semantics_witness :
    dictGet (dictUpdate [("y", Value.int 0)] [("x", Value.int 1)]) "x"
        = dictGet [("x", Value.int 1)] "x"
    ∧ dictGet (dictUpdate [("y", Value.int 0)] [("x", Value.int 1)]) "y"
        = dictGet [("y", Value.int 0)] "y"
    ∧ dictGet (mergeVars (some [("x", Value.int 9)])
          (dictUpdate [("y", Value.int 0)] [("x", Value.int 1)])) "x"
        = dictGet (dictUpdate [("y", Value.int 0)] [("x", Value.int 1)]) "x"
    ∧ dictGet (dictUpdate (dictUpdate [("y", Value.int 0)] [("x", Value.int 1)])
          [("x", Value.int 2)]) "x"
        = (if dictHasKey [("x", Value.int 2)] "x" then dictGet [("x", Value.int 2)] "x"
           else if dictHasKey [("x", Value.int 1)] "x" then dictGet [("x", Value.int 1)] "x"
           else dictGet [("y", Value.int 0)] "x") :=
  ⟨(C5_save_semantics [] [("y", Value.int 0)] [("x", Value.int 1)] [("x", Value.int 2)]
      Option.none Option.none (some [("x", Value.int 9)]) "x").2.2.1 (by decide) (by decide),
    (C5_save_semantics [] [("y", Value.int 0)] [("x", Value.int 1)] [("x", Value.int 2)]
      Option.none Option.none (some [("x", Value.int 9)]) "y").2.2.2.1 (by decide),
    (C5_save_semantics [] [("y", Value.int 0)] [("x", Value.int 1)] [("x", Value.int 2)]
      Option.none Option.none (some [("x", Value.int 9)]) "x").2.2.2.2.1
      (by decide) (by decide),
    (C5_save_semantics [] [("y", Value.int 0)] [("x", Value.int 1)] [("x", Value.int 2)]
      Option.none Option.none (some [("x", Value.int 9)]) "x").2.2.2.2.2
      (by decide) (by decide)⟩

/-- Claim C6: CLEAR with no arguments empties the whole persistent state
store; CLEAR with names removes exactly the given names, leaves every other
name untouched, treats missing names as no-ops rather than errors, and
returns a confirmation string. -/
theorem C6_clear_semantics (tools : Dict CallerTool) (st : Dict Value)
    (fields : Option (List OutputField)) (vars : Option (Dict Value))
    (strs : List String) (k : String) :
    invokeTool ToolEntry.clear [] [] st
      = (Except.ok (Value.str "Cleared all saved state"), [])
    ∧ execute ⟨tools, st, fields⟩
        (constSession (Activation.snapshot [] "CLEAR" [] []
          (fun _ => Activation.complete []))) vars
      = (Except.ok TurnResult.noOutput, [])
    ∧ (strs ≠ [] →
        invokeTool ToolEntry.clear (strs.map Value.str) [] st
          = (Except.ok (Value.str ("Cleared: " ++ String.intercalate ", " strs)),
              clearNames (strs.map Value.str) st))
    ∧ dictGet (clearNames (strs.map Value.str) st) k
        = (if k ∈ strs then Option.none else dictGet st k) := by
  refine ⟨by simp [invokeTool], ?_, ?_, ?_⟩
  · show runLoop _ _ _ _ _ _ = _
    simp [constSession, runLoop, buildAllTools_get_CLEAR, invokeTool]
  · intro hs
    cases strs with
    | nil => exact absurd rfl hs
    | cons s rest =>
      have h : valuesAllStr (Value.str s :: List.map Value.str rest) = some (s :: rest) :=
        valuesAllStr_map_str (s :: rest)
      simp [invokeTool, h]
  · rw [clearNames_get]
    simp [List.mem_map]

theorem C6_clear_semantics_witness :
    invokeTool ToolEntry.clear (["x"].map Value.str) []
        [("x", Value.int 1), ("y", Value.int 2)]
      = (Except.ok (Value.str ("Cleared: " ++ String.intercalate ", " ["x"])),
          clearNames (["x"].map Value.str) [("x", Value.int 1), ("y", Value.int 2)]) :=
  (C6_clear_semantics [] [("x", Value.int 1), ("y", Value.int 2)] Option.none Option.none
    ["x"] "y").2.2.1 (by decide)

/-- Claim C7: the effective per-turn Tool Registry registers caller tools
first and then overwrites the reserved names SAVE, CLEAR and SUBMIT with the
bridge entries, so a caller tool supplied under a reserved name can never
shadow the bridge semantics, while every other name resolves to the caller
tool registered under it. -/
theorem C7_reserved_names_win (tools : Dict CallerTool) (n : String) :
    dictGet (buildAllTools tools) "SAVE" = some ToolEntry.save
    ∧ dictGet (buildAllTools tools) "CLEAR" = some ToolEntry.clear
    ∧ dictGet (buildAllTools tools) "SUBMIT" = some ToolEntry.submitStub
    ∧ (n ≠ "SAVE" → n ≠ "CLEAR" → n ≠ "SUBMIT" →
        dictGet (buildAllTools tools) n
          = Option.map ToolEntry.caller (dictGet tools n)) :=
  ⟨buildAllTools_get_SAVE tools, buildAllTools_get_CLEAR tools,
    buildAllTools_get_SUBMIT tools,
    fun h1 h2 h3 => buildAllTools_get_other tools h1 h2 h3⟩

theorem C7_reserved_names_win_witness :
    dictGet (buildAllTools [("SAVE", fun _ _ => Except.ok (Value.int 0))]) "SAVE"
        = some ToolEntry.save
    ∧ dictGet (buildAllTools [("SAVE", fun _ _ => Except.ok (Value.int 0))]) "g"
        = Option.map ToolEntry.caller
            (dictGet [("SAVE", fun _ _ => Except.ok (Value.int 0))] "g") :=
  ⟨(C7_reserved_names_win [("SAVE", fun _ _ => Except.ok (Value.int 0))] "g").1,
    (C7_reserved_names_win [("SAVE", fun _ _ => Except.ok (Value.int 0))] "g").2.2.2
      (by decide) (by decide) (by decide)⟩

/-- Claim C8: when a registered tool raises, the turn fails with a
tool-execution error whose message wraps the tool name and the underlying
cause, and a SAVE that executed earlier in the same turn remains committed:
the state store `execute` leaves behind is the updated one, and the saved
bindings are served by a later turn's Variable Binding Set merge. -/
theorem C8_tool_failure_keeps_saves (st kw : Dict Value)
    (fields : Option (List OutputField)) (vars vars2 : Option (Dict Value))
    (tn m : String) (p1 p2 : List String) (next : Value → Activation) (n : String)
    (h1 : tn ≠ "SAVE") (h2 : tn ≠ "CLEAR") (h3 : tn ≠ "SUBMIT") :
    execute ⟨[(tn, fun _ _ => Except.error m)], st, fields⟩
        (constSession (Activation.snapshot p1 "SAVE" [] kw
          (fun _ => Activation.snapshot p2 tn [] [] next))) vars
      = (Except.error ⟨PyExnKind.codeInterpreterError, "Tool " ++ tn ++ " failed: " ++ m⟩,
          dictUpdate st kw)
    ∧ ((dictKeys st).Nodup → dictHasKey (dictUpdate st kw) n = true →
        dictGet (mergeVars vars2 (dictUpdate st kw)) n = dictGet (dictUpdate st kw) n) := by
  constructor
  · show runLoop _ _ _ _ _ _ = _
    simp [constSession, runLoop, buildAllTools_get_SAVE,
      buildAllTools_get_other _ h1 h2 h3, invokeTool, h3, dictGet]
  · exact fun hnd h => mergeVars_of_hasKey vars2 (dictKeys_update_nodup kw hnd) h

theorem C8_tool_failure_keeps_saves_witness :
    execute ⟨[("t", fun _ _ => Except.error "boom")], [], Option.none⟩
        (constSession (Activation.snapshot [] "SAVE" [] [("x", Value.int 1)]
          (fun _ => Activation.snapshot [] "t" [] [] (fun _ => Activation.complete []))))
        Option.none
      = (Except.error ⟨PyExnKind.codeInterpreterError, "Tool " ++ "t" ++ " failed: " ++ "boom"⟩,
          dictUpdate [] [("x", Value.int 1)])
    ∧ dictGet (mergeVars Option.none (dictUpdate [] [("x", Value.int 1)])) "x"
        = dictGet (dictUpdate [] [("x", Value.int 1)]) "x" :=
  ⟨(C8_tool_failure_keeps_saves [] [("x", Value.int 1)] Option.none Option.none Option.none
      "t" "boom" [] [] (fun _ => Activation.complete []) "x"
      (by decide) (by decide) (by decide)).1,
    (C8_tool_failure_keeps_saves [] [("x", Value.int 1)] Option.none Option.none Option.none
      "t" "boom" [] [] (fun _ => Activation.complete []) "x"
      (by decide) (by decide) (by decide)).2 (by decide) (by decide)⟩

/-- Claim C9: a turn that completes normally without SUBMIT returns the
concatenation of the captured print fragments in emission order, and when
no fragment was captured it returns the distinguished no-output value
(Python `None`), which differs from the empty string result. -/
theorem C9_captured_output (tools : Dict CallerTool) (st : Dict Value)
    (fields : Option (List OutputField)) (vars : Option (Dict Value))
    (p1 p2 : List String) (rv : Value) :
    execute ⟨tools, st, fields⟩ (constSession (Activation.complete p1)) vars
      = (Except.ok (if p1.isEmpty then TurnResult.noOutput
          else TurnResult.textOut (String.join p1)), st)
    ∧ execute ⟨[("t", fun _ _ => Except.ok rv)], st, fields⟩
        (constSession (Activation.snapshot p1 "t" [] []
          (fun _ => Activation.complete p2))) vars
      = (Except.ok (if (p1 ++ p2).isEmpty then TurnResult.noOutput
          else TurnResult.textOut (String.join (p1 ++ p2))), st)
    ∧ TurnResult.noOutput ≠ TurnResult.textOut "" := by
  refine ⟨?_, ?_, by decide⟩
  · show runLoop _ _ _ _ _ _ = _
    simp [constSession, runLoop]
  · show runLoop _ _ _ _ _ _ = _
    simp [constSession, runLoop,
      @buildAllTools_get_other [("t", fun _ _ => Except.ok rv)] "t"
        (by decide) (by decide) (by decide),
      invokeTool, dictGet]

/-- Claim C10: positional SUBMIT arguments beyond the declared output
fields are silently discarded — the pairing stops at the shorter sequence
and the turn still produces a Final Output, not an error — and a positional
argument whose paired field name is already bound by a keyword argument is
dropped outright rather than assigned to the next free field. -/
theorem C10_extra_positional_args (tools : Dict ToolEntry) (F : List OutputField)
    (args : List Value) (kwargs : Dict Value) (prints : List String)
    (next : Value → Activation) (ft : Option String) (st : Dict Value)
    (acc : List String) (a b : String) (v1 v2 : Value) :
    buildSubmitOutput (some F) args kwargs
      = buildSubmitOutput (some F) (args.take F.length) kwargs
    ∧ runLoop tools (some F) (Activation.snapshot prints "SUBMIT" args kwargs next)
        ft st acc
      = (Except.ok (TurnResult.finalOutput (buildSubmitOutput (some F) args kwargs)), st)
    ∧ (dictHasKey kwargs a = true → dictHasKey kwargs b = false → a ≠ b →
        buildSubmitOutput (some [⟨a⟩, ⟨b⟩]) [v1, v2] kwargs = kwargs ++ [(b, v2)]) := by
  refine ⟨?_, by simp [runLoop], ?_⟩
  · cases F with
    | nil => simp [buildSubmitOutput, outputFieldsTruthy]
    | cons f fs =>
      cases args with
      | nil => simp [buildSubmitOutput]
      | cons a1 as =>
        unfold buildSubmitOutput
        simp only [Option.getD_some]
        rw [zip_eq_zip_take (fieldNames (f :: fs)) (a1 :: as)]
        simp [fieldNames, outputFieldsTruthy]
  · intro hA hB hab
    simp [buildSubmitOutput, outputFieldsTruthy, fieldNames, dictSetdefault, hA, hB]

theorem C10_extra_positional_args_witness :
    buildSubmitOutput (some [⟨"a"⟩, ⟨"b"⟩]) [Value.int 1, Value.int 2]
        [("a", Value.int 9)]
      = [("a", Value.int 9)] ++ [("b", Value.int 2)] :=
  (C10_extra_positional_args [] [⟨"a"⟩, ⟨"b"⟩] [Value.int 1, Value.int 2]
    [("a", Value.int 9)] [] (fun _ => Activation.complete []) Option.none [] []
    "a" "b" (Value.int 1) (Value.int 2)).2.2 (by decide) (by decide) (by decide)

end MontySpec
